import Mathlib

/-!
Verification development for the EII deployment-tool backend
(`src/libs/util.py`, `src/libs/builder.py`, `src/libs/camera.py`).

The Python modules are shallowly embedded: Python dicts become association
lists over `String` keys, the process-wide `Util.state_info` dict becomes an
explicit state value, worker threads become functions from their inputs and
an oracle of external-command outcomes to the trace of `Util.set_state`
calls they perform, and the cooperatively-read `alive` flag becomes an
oracle giving the value observed at each successive read.
-/

/-- Values stored in Python dicts of this code base: strings, non-negative
ints, and the float produced by true division of two non-negative ints
(`(i*100)/(n_images+1)` in `deployer_thread`); the IEEE-754 quotient is kept
abstract as the pair numerator/denominator, since no claim depends on its
numeric value. -/
inductive PyVal where
  | str (s : String)
  | int (n : Nat)
  | floatDiv (num den : Nat)
deriving DecidableEq

/-- First-match lookup in an association list, as for a Python dict. -/
def dictGet {α : Type} (d : List (String × α)) (k : String) : Option α :=
  match d with
  | [] => none
  | p :: rest => if p.1 = k then some p.2 else dictGet rest k

/-- `d[k] = v` on a Python dict: update the binding in place when the key is
present, append a new binding otherwise. -/
def dictSet {α : Type} (d : List (String × α)) (k : String) (v : α) :
    List (String × α) :=
  match d with
  | [] => [(k, v)]
  | p :: rest => if p.1 = k then (k, v) :: rest else p :: dictSet rest k v

/-- Whether a key is present in the dict. -/
def containsKey {α : Type} (d : List (String × α)) (k : String) : Bool :=
  match d with
  | [] => false
  | p :: rest => if p.1 = k then true else containsKey rest k

/-- Guarded `del d[k]` (the source always guards the delete with
`if task in Util.state_info`). -/
def dictDel {α : Type} (d : List (String × α)) (k : String) :
    List (String × α) :=
  match d with
  | [] => []
  | p :: rest => if p.1 = k then dictDel rest k else p :: dictDel rest k

namespace Util

/- String constants of `src/libs/util.py` lines 52-67. -/
def TASK : String := "task"
def PROGRESS : String := "progress"
def STATUS : String := "status"
def IN_PROGRESS : String := "In Progress"
def SUCCESS : String := "Success"
def FAILED : String := "Failed"
def PROVISION : String := "provision"
def BUILD : String := "build"
def DEPLOY : String := "deploy"
def ALIVE : String := "alive"
def THREAD : String := "thread"
def FRAMES : String := "frames"
def START : String := "start"
def STOP : String := "stop"
def RESTART : String := "restart"
def BUSY : String := "busy"

/-- The process-wide `Util.state_info` dict. -/
abbrev StateInfo : Type := List (String × PyVal)

/-- `Util.state_info = {TASK: "", PROGRESS: "", STATUS: ""}` (util.py:69). -/
def state_init : StateInfo :=
  [(TASK, PyVal.str ""), (PROGRESS, PyVal.str ""), (STATUS, PyVal.str "")]

/-- `Util.set_state(task, progress, status=IN_PROGRESS)` (util.py:325-339):
with `progress is None` it deletes the key named by `task` if present,
otherwise it assigns the `task`, `progress` and `status` entries.  The
mutex acquire/release pair around the mutation is not modelled. -/
def set_state (st : StateInfo) (task : String) (progress : Option PyVal)
    (status : String := IN_PROGRESS) : StateInfo :=
  match progress with
  | none => dictDel st task
  | some p =>
      dictSet (dictSet (dictSet st TASK (PyVal.str task)) PROGRESS p)
        STATUS (PyVal.str status)

/-- `Util.is_busy()` (util.py:317-322):
`Util.state_info[Util.STATUS] == Util.IN_PROGRESS`. -/
def is_busy (st : StateInfo) : Bool :=
  decide (dictGet st STATUS = some (PyVal.str IN_PROGRESS))

end Util

/-- One `Util.set_state` call performed by a worker thread. -/
structure StateEvent where
  task : String
  progress : PyVal
  status : String
deriving DecidableEq

/-- Outcome of one run of `Builder.builder_thread`. -/
structure RunResult where
  /-- The `Util.set_state` calls, in order. -/
  events : List StateEvent
  /-- How many `docker-compose build` commands were issued. -/
  cmdsRun : Nat
  /-- Value of `self.threads[Util.BUILD][Util.ALIVE]` written by the thread
  on the paths where it writes the flag before returning. -/
  finalAlive : Bool
  /-- Whether the batch (non-sequential) build branch was executed. -/
  batchMode : Bool
deriving DecidableEq

/-- External-world outcomes consumed by one run of `builder_thread`.
Command text (including the `--no-cache` flag) is abstracted into the
success/failure outcome of each command. -/
structure BuildOracle where
  /-- Result of `get_services_from_docker_compose_yml`: `none` for a failed
  parse, `some ls` for the parsed service list. -/
  ymlServices : Option (List String)
  /-- Outcome of the `rm -f .build.log` command. -/
  rmOk : Bool
  /-- Value of `self.threads[Util.BUILD][Util.ALIVE]` observed at the k-th
  read inside the build loop. -/
  alive : Nat → Bool
  /-- Outcome of the i-th per-service `docker-compose build` command. -/
  svcCmdOk : Nat → Bool
  /-- Outcome of the aggregate `docker-compose build` command (batch mode). -/
  batchOk : Bool

/-- The sequential `for service in services_list` loop of `builder_thread`
(builder.py:333-351) followed by the final
`Util.set_state(Util.BUILD, 100, "Success")` (builder.py:365).  `n` is
`num_services`, `rest` the services not yet iterated, `i` the count of
completed services.  Each iteration first reads the slot's alive flag and
breaks when it is false; a break falls through to the same final
`set_state(BUILD, 100, "Success")` as normal loop exit.  The published
progress `int((i*100)/num_services)` is modelled as natural floor division
(for the magnitudes involved the float division of the source is exact
enough that `int` of it is the floor). -/
def builderSeqLoop (alive cmdOk : Nat → Bool) (n : Nat) (rest : List String)
    (i : Nat) : RunResult :=
  match rest with
  | [] =>
      { events := [⟨Util.BUILD, PyVal.int 100, Util.SUCCESS⟩],
        cmdsRun := 0, finalAlive := false, batchMode := false }
  | _ :: tl =>
      if alive i then
        if cmdOk i then
          let r := builderSeqLoop alive cmdOk n tl (i + 1)
          { events := ⟨Util.BUILD, PyVal.int (((i + 1) * 100) / n),
              Util.IN_PROGRESS⟩ :: r.events,
            cmdsRun := r.cmdsRun + 1, finalAlive := r.finalAlive,
            batchMode := r.batchMode }
        else
          { events := [⟨Util.BUILD, PyVal.int 0, Util.FAILED⟩],
            cmdsRun := 1, finalAlive := false, batchMode := false }
      else
        { events := [⟨Util.BUILD, PyVal.int 100, Util.SUCCESS⟩],
          cmdsRun := 0, finalAlive := false, batchMode := false }

/-- `builder_thread` from the removal of the old build log onwards
(builder.py:324-366): failing to remove the log publishes `(0, Failed)`;
sequential mode runs the per-service loop; batch mode publishes the 50%
checkpoint, runs one aggregate build command and publishes
`(100, Success)` or `(0, Failed)`. -/
def builderMain (services_list : List String) (sequential : Bool)
    (o : BuildOracle) : RunResult :=
  if o.rmOk then
    if sequential then
      builderSeqLoop o.alive o.svcCmdOk services_list.length services_list 0
    else
      if o.batchOk then
        { events := [⟨Util.BUILD, PyVal.int 50, Util.IN_PROGRESS⟩,
            ⟨Util.BUILD, PyVal.int 100, Util.SUCCESS⟩],
          cmdsRun := 1, finalAlive := false, batchMode := true }
      else
        { events := [⟨Util.BUILD, PyVal.int 50, Util.IN_PROGRESS⟩,
            ⟨Util.BUILD, PyVal.int 0, Util.FAILED⟩],
          cmdsRun := 1, finalAlive := false, batchMode := true }
  else
    { events := [⟨Util.BUILD, PyVal.int 0, Util.FAILED⟩],
      cmdsRun := 0, finalAlive := false, batchMode := false }

/-- `Builder.builder_thread(services, sequential, no_cache)`
(builder.py:299-366).  The first statement indexes `services[0]`, so the
empty list raises `IndexError`: modelled as `none`.  When
`services[0] != "*"` the explicit list is used and `sequential` is forced
to `True`; when `services[0] == "*"` and `sequential` is true the list
comes from the compose manifest (a parse failure publishes `(0, Failed)`
and returns); otherwise the batch branch runs.  `no_cache` only alters the
command text and is absorbed into the command-outcome oracle. -/
def builder_thread (services : List String) (sequential no_cache : Bool)
    (o : BuildOracle) : Option RunResult :=
  match services with
  | [] => none
  | s0 :: _ =>
      if s0 = "*" then
        if sequential then
          match o.ymlServices with
          | some ls => some (builderMain ls true o)
          | none =>
              some { events := [⟨Util.BUILD, PyVal.int 0, Util.FAILED⟩],
                     cmdsRun := 0, finalAlive := false, batchMode := false }
        else some (builderMain [] false o)
      else some (builderMain services true o)

/-- Outcome of one run of `Builder.deployer_thread`. -/
structure DeployResult where
  /-- The `Util.set_state` calls, in order. -/
  events : List StateEvent
  /-- How many external commands (`docker save`/`rsync`) were issued. -/
  cmdsRun : Nat
deriving DecidableEq

/-- External-world outcomes consumed by one run of `deployer_thread`. -/
structure DeployOracle where
  /-- Value of `self.threads[Util.DEPLOY][Util.ALIVE]` at the k-th read. -/
  alive : Nat → Bool
  /-- Outcome of the i-th `docker save | ... docker load` command. -/
  saveOk : Nat → Bool
  /-- Outcome of the final `rsync` command. -/
  rsyncOk : Bool

/-- The tail of `deployer_thread` after the image loop (builder.py:428-442):
re-read the alive flag (read index `ridx`); when it is false publish
`(0, Failed)` without running the sync; otherwise run the `rsync` command
and publish `(100, Success)` or `(0, Failed)`. -/
def deployerTail (alive : Nat → Bool) (rsyncOk : Bool) (ridx : Nat) :
    DeployResult :=
  if alive ridx then
    if rsyncOk then
      { events := [⟨Util.DEPLOY, PyVal.int 100, Util.SUCCESS⟩], cmdsRun := 1 }
    else
      { events := [⟨Util.DEPLOY, PyVal.int 0, Util.FAILED⟩], cmdsRun := 1 }
  else
    { events := [⟨Util.DEPLOY, PyVal.int 0, Util.FAILED⟩], cmdsRun := 0 }

/-- The `for image in images` loop of `deployer_thread`
(builder.py:410-426): each iteration reads the alive flag (read index `i`)
and breaks when false; a save/load failure publishes `(0, Failed)` and
returns; success publishes the float progress `(i*100)/(n_images+1)`.
After the loop (break at read `i` continues at read `i+1`; normal
completion at read `n`) control reaches `deployerTail`. -/
def deployerLoop (alive saveOk : Nat → Bool) (rsyncOk : Bool) (n : Nat)
    (rest : List String) (i : Nat) : DeployResult :=
  match rest with
  | [] => deployerTail alive rsyncOk i
  | _ :: tl =>
      if alive i then
        if saveOk i then
          let r := deployerLoop alive saveOk rsyncOk n tl (i + 1)
          { events := ⟨Util.DEPLOY, PyVal.floatDiv ((i + 1) * 100) (n + 1),
              Util.IN_PROGRESS⟩ :: r.events,
            cmdsRun := r.cmdsRun + 1 }
        else
          { events := [⟨Util.DEPLOY, PyVal.int 0, Util.FAILED⟩], cmdsRun := 1 }
      else deployerTail alive rsyncOk (i + 1)

/-- `Builder.deployer_thread(images, ...)` (builder.py:394-442); the
connection parameters only alter command text and are absorbed into the
command-outcome oracle. -/
def deployer_thread (images : List String) (o : DeployOracle) : DeployResult :=
  deployerLoop o.alive o.saveOk o.rsyncOk images.length images 0

/-! ## Camera (`src/libs/camera.py`) -/

/-- A Python `queue.Queue(maxsize)`: bounded FIFO. -/
structure PyQueue (α : Type) where
  maxsize : Nat
  items : List α
deriving DecidableEq

/-- `Queue.full()`: `0 < maxsize <= qsize()`. -/
def PyQueue.full {α : Type} (q : PyQueue α) : Bool :=
  decide (0 < q.maxsize ∧ q.maxsize ≤ q.items.length)

/-- `Queue.put(x)` appends at the tail. -/
def PyQueue.put {α : Type} (q : PyQueue α) (x : α) : PyQueue α :=
  { q with items := q.items ++ [x] }

/-- The publish step of `Camera.streamer_thread` (camera.py:124-127):
`with cond: if not queue.full(): queue.put(bframe); cond.notifyAll()`.
The condition-variable notification is not modelled; when the queue is
full the newly encoded frame is dropped. -/
def publishFrame {α : Type} (q : PyQueue α) (frame : α) : PyQueue α :=
  if q.full then q else q.put frame

/-- One entry of `Camera.device_threads` (camera.py:198-205).  The Python
entry is a dict with keys `id`, `thread`, `alive`, `frames`, `condition`;
the condition variable carries no state relevant to the claims and is
omitted.  The thread object is represented by the spawn counter value used
when it was created; frames are opaque (`Nat`). -/
structure Handle where
  id : String
  thread : Nat
  alive : Bool
  frames : PyQueue Nat
deriving DecidableEq

/-- `Camera.device_threads`, a dict keyed by device id. -/
abbrev Registry : Type := List (String × Handle)

/-- Events observable from `Camera.start`/`Camera.stop`, in program order.
`join d` denotes `threads[d]["thread"].join()` returning, i.e. the worker
thread of `d` has terminated. -/
inductive CamEv where
  | spawn (d : String)
  | warnRunning (d : String)
  | signal (d : String)
  | warnNotRunning (d : String)
  | unlock
  | join (d : String)
  | remove (d : String)
deriving DecidableEq

/-!
`Camera.resize_image` computes its scaled dimension with Python floats,
i.e. IEEE-754 binary64 arithmetic: one correctly rounded division for
`aspect = height / float(img_height)` and one correctly rounded
multiplication for `img_width * aspect`.  The following is an executable
model of binary64: non-negative float values are represented as
numerator/denominator pairs of naturals, and `rnd53ND` performs correct
rounding to a 53-bit significand (round to nearest, ties to even) with an
unbounded exponent range — it agrees exactly with IEEE-754 binary64 on
every value in the binary64 normal range, which covers all quantities
arising from image dimensions below `2^53` (no overflow, no subnormals).
-/

/-- Fuel-driven base-2 logarithm; structural recursion so that concrete
instances evaluate inside the kernel.  Equals `Nat.log2` (proved below). -/
def log2fuel : Nat → Nat → Nat
  | 0, _ => 0
  | f + 1, n => if n < 2 then 0 else log2fuel f (n / 2) + 1

/-- `⌊log2 n⌋` for `n > 0`. -/
def natLog2 (n : Nat) : Nat := log2fuel n n

/-- Decides `n / d < 2 ^ e` for naturals `n`, `d` (`d > 0`) and `e : ℤ`,
in natural arithmetic. -/
def ltPow2 (n d : Nat) (e : ℤ) : Bool :=
  if 0 ≤ e then n < 2 ^ e.toNat * d else n * 2 ^ (-e).toNat < d

/-- `⌊log2 (n / d)⌋` for a positive rational `n / d`: the difference of the
integer logs is off by at most one, corrected by one comparison. -/
def floorLog2ND (n d : Nat) : ℤ :=
  if ltPow2 n d ((natLog2 n : ℤ) - (natLog2 d : ℤ))
  then (natLog2 n : ℤ) - (natLog2 d : ℤ) - 1
  else (natLog2 n : ℤ) - (natLog2 d : ℤ)

/-- Round `n / d` (`d > 0`) to the nearest integer, ties to even. -/
def roundHalfEvenND (n d : Nat) : Nat :=
  if 2 * (n % d) < d then n / d
  else if d < 2 * (n % d) then n / d + 1
  else if (n / d) % 2 = 0 then n / d else n / d + 1

/-- The rounded 53-bit significand of `n / d`: the value scaled into
`[2^52, 2^53)` and rounded to the nearest integer, ties to even. -/
def rnd53Sig (n d : Nat) (e : ℤ) : Nat :=
  if 0 ≤ (52:ℤ) - e then roundHalfEvenND (n * 2 ^ ((52:ℤ) - e).toNat) d
  else roundHalfEvenND n (d * 2 ^ (e - 52).toNat)

/-- Correctly rounded binary64 value of the non-negative rational `n / d`
(round to nearest, ties to even, 53-bit significand, unbounded exponent),
as a numerator/denominator pair whose denominator is a power of two. -/
def rnd53ND (n d : Nat) : Nat × Nat :=
  if n = 0 then (0, 1)
  else if 0 ≤ floorLog2ND n d - 52 then
    (rnd53Sig n d (floorLog2ND n d) * 2 ^ (floorLog2ND n d - 52).toNat, 1)
  else (rnd53Sig n d (floorLog2ND n d), 2 ^ ((52:ℤ) - floorLog2ND n d).toNat)

/-- One correctly rounded float division: the exact quotient of the two
float values, rounded. -/
def fdivND (p q : Nat × Nat) : Nat × Nat := rnd53ND (p.1 * q.2) (p.2 * q.1)

/-- One correctly rounded float multiplication: the exact product of the
two float values, rounded. -/
def fmulND (p q : Nat × Nat) : Nat × Nat := rnd53ND (p.1 * q.1) (p.2 * q.2)

/-- Python `int()` of a non-negative float: truncation toward zero, which
on these non-negative values is the floor — in the pair representation,
natural division. -/
def intOfFloat (p : Nat × Nat) : Nat := p.1 / p.2

namespace Camera

/-- `self.BUFF_SIZE = 30` (camera.py:40). -/
def BUFF_SIZE : Nat := 30

/-- `Camera.start(devices, width, height)` (camera.py:183-209): under the
registry mutex, for each device not yet present allocate a fresh stream id
(`token_urlsafe(8)`, modelled by the supply `freshId` at the running spawn
counter `c`), a thread, `alive=True` and an empty bounded queue, and start
the thread; for a device already present only log a warning.  `width` and
`height` are passed through to the spawned thread and do not affect the
registry.  Returns the new registry, the new spawn counter and the event
trace. -/
def start (reg : Registry) (devices : List String) (freshId : Nat → String)
    (c : Nat) : Registry × Nat × List CamEv :=
  match devices with
  | [] => (reg, c, [])
  | d :: ds =>
      if containsKey reg d then
        let r := start reg ds freshId c
        (r.1, r.2.1, CamEv.warnRunning d :: r.2.2)
      else
        let h : Handle := { id := freshId c, thread := c, alive := true,
                            frames := { maxsize := BUFF_SIZE, items := [] } }
        let r := start (reg ++ [(d, h)]) ds freshId (c + 1)
        (r.1, r.2.1, CamEv.spawn d :: r.2.2)

/-- `self.device_threads[device][Util.ALIVE] = False` for one device. -/
def setAlive (reg : Registry) (d : String) (b : Bool) : Registry :=
  reg.map (fun p => if p.1 = d then (p.1, { p.2 with alive := b }) else p)

/-- `del self.device_threads[device]`. -/
def eraseKey (reg : Registry) (d : String) : Registry :=
  reg.filter (fun p => decide (p.1 ≠ d))

/-- First phase of `Camera.stop` (camera.py:222-228), under the registry
mutex: signal each provided device that is present by setting its alive
flag to false (the entry itself stays in the registry); warn for devices
not present. -/
def stopSignalPhase (reg : Registry) (devices : List String) :
    Registry × List CamEv :=
  match devices with
  | [] => (reg, [])
  | d :: ds =>
      if containsKey reg d then
        let r := stopSignalPhase (setAlive reg d false) ds
        (r.1, CamEv.signal d :: r.2)
      else
        let r := stopSignalPhase reg ds
        (r.1, CamEv.warnNotRunning d :: r.2)

/-- Second phase of `Camera.stop` (camera.py:233-239), after the mutex is
released: for each provided device present in the snapshot `threads`, join
its worker thread, then (re-acquiring the mutex) delete its entry if still
present. -/
def stopJoinPhase (reg : Registry) (threads : Registry)
    (devices : List String) : Registry × List CamEv :=
  match devices with
  | [] => (reg, [])
  | d :: ds =>
      if containsKey threads d then
        if containsKey reg d then
          let r := stopJoinPhase (eraseKey reg d) threads ds
          (r.1, CamEv.join d :: CamEv.remove d :: r.2)
        else
          let r := stopJoinPhase reg threads ds
          (r.1, CamEv.join d :: r.2)
      else stopJoinPhase reg threads ds

/-- `Camera.stop(devices)` (camera.py:212-239): an empty device list means
all currently registered devices; then signal phase (under the mutex), a
snapshot copy of the registry, mutex release, and the join/remove phase. -/
def stop (reg : Registry) (devices0 : List String) : Registry × List CamEv :=
  let devices := match devices0 with
    | [] => reg.map Prod.fst
    | _ => devices0
  let p1 := stopSignalPhase reg devices
  let threads := p1.1
  let p2 := stopJoinPhase p1.1 threads devices
  (p2.1, p1.2 ++ CamEv.unlock :: p2.2)

/-- A camera status entry: `{"status": "Running", "stream_id": id}` or
`{"status": "Not Running"}` (no `stream_id` key). -/
inductive CamStatus where
  | running (stream_id : String)
  | notRunning
deriving DecidableEq

/-- `Camera.get_status(devices)` (camera.py:242-268): with no devices
given, report every registered device as Running with its stream id;
otherwise report each queried device as Running with its stream id when
present, Not Running (and no stream id) when absent. -/
def get_status (reg : Registry) (devices : List String) :
    List (String × CamStatus) :=
  match devices with
  | [] => reg.map (fun p => (p.1, CamStatus.running p.2.id))
  | _ => devices.map (fun d =>
      (d, match dictGet reg d with
          | some h => CamStatus.running h.id
          | none => CamStatus.notRunning))

/-- `Camera.resize_image(image, width, height)` (camera.py:42-69).  The
image is abstracted to its dimensions; `image.shape[:2]` is
`(img_height, img_width)`.  Both dimensions absent: returned unchanged.
`width` absent: `aspect = height / float(img_height)` (the ints are
converted to binary64 — a rounding each — and divided with one correctly
rounded division), then `new_size = (int(img_width * aspect), height)`
(one correctly rounded multiplication, then `int()` truncation toward
zero).  Otherwise symmetrically: `aspect = width / float(img_width)`,
`new_size = (width, int(img_height * aspect))`.  Dimensions are returned
as (width, height). -/
def resize_image (img_width img_height : Nat) (width height : Option Nat) :
    Nat × Nat :=
  match width, height with
  | none, none => (img_width, img_height)
  | none, some hh =>
      (intOfFloat (fmulND (rnd53ND img_width 1)
        (fdivND (rnd53ND hh 1) (rnd53ND img_height 1))), hh)
  | some ww, _ =>
      (ww, intOfFloat (fmulND (rnd53ND img_height 1)
        (fdivND (rnd53ND ww 1) (rnd53ND img_width 1))))

end Camera

/-! ## Builder task-initiating operations (`src/libs/builder.py`) -/

/-- One slot of `Builder.threads` (builder.py:39-41): a dict that initially
holds only `alive=False` and receives a `thread` entry when a worker is
spawned.  `hasThread` records whether the `thread` key has been set. -/
structure Slot where
  alive : Bool
  hasThread : Bool
deriving DecidableEq

/-- `Builder.__init__` (builder.py:37-41):
`self.threads = {Util.BUILD: {}, Util.DEPLOY: {}}` followed by
`threads[key][Util.ALIVE] = False` for each key. -/
def builderInitThreads : List (String × Slot) :=
  [(Util.BUILD, ⟨false, false⟩), (Util.DEPLOY, ⟨false, false⟩)]

/-- `Builder.do_build(services, sequential, no_cache)` (builder.py:368-392):
when busy, return `(False, Util.BUSY, "")` with nothing else done;
otherwise set the progress state to `(build, 0, In Progress)`, store a new
thread in the build slot, set its alive flag, start the thread and return
`(True, "", "")`.  The result carries the returned triple, the progress
state after the call, the threads dict after the call, and whether a
worker thread was spawned. -/
def do_build (st : Util.StateInfo) (th : List (String × Slot))
    (services : List String) (sequential no_cache : Bool) :
    (Bool × String × String) × Util.StateInfo × List (String × Slot) × Bool :=
  if Util.is_busy st then ((false, Util.BUSY, ""), st, th, false)
  else
    (((true, "", "")),
     Util.set_state st Util.BUILD (some (PyVal.int 0)),
     dictSet th Util.BUILD ⟨true, true⟩, true)

/-- `Builder.do_deploy(images, ...)` (builder.py:444-472): when busy,
return `(False, Util.BUSY)`; otherwise set the progress state to
`(deploy, 0, In Progress)`, store and start a worker in the deploy slot
and return `(True, "")`. -/
def do_deploy (st : Util.StateInfo) (th : List (String × Slot))
    (images : List String) :
    (Bool × String) × Util.StateInfo × List (String × Slot) × Bool :=
  if Util.is_busy st then ((false, Util.BUSY), st, th, false)
  else
    ((true, ""),
     Util.set_state st Util.DEPLOY (some (PyVal.int 0)),
     dictSet th Util.DEPLOY ⟨true, true⟩, true)

/-- `Builder.do_set_config(config)` (builder.py:194-236): when busy,
return `(False, Util.BUSY)` immediately.  The non-busy body only loads,
validates and stores configuration files — it never touches
`Util.state_info` and never spawns a thread — and is abstracted into the
oracle `rest` for its returned pair. -/
def do_set_config (st : Util.StateInfo) (rest : Bool × String) :
    (Bool × String) × Util.StateInfo :=
  if Util.is_busy st then ((false, Util.BUSY), st)
  else (rest, st)

/-- `Builder.do_generate_config(...)` (builder.py:86-155): when busy,
return `(False, Util.BUSY, "")` immediately.  The non-busy body performs
file operations and synchronous commands — it never touches
`Util.state_info` and never spawns a thread — and is abstracted into the
oracle `rest`. -/
def do_generate_config (st : Util.StateInfo) (rest : Bool × String × String) :
    (Bool × String × String) × Util.StateInfo :=
  if Util.is_busy st then ((false, Util.BUSY, ""), st)
  else (rest, st)

/-- `Builder.do_run(action)` (builder.py:596-635): first the action is
validated against `[start, stop, restart]` and an invalid action is
rejected; only then is the busy check performed.  The non-busy body runs
synchronous commands — it never touches `Util.state_info` and never
spawns a thread — and is abstracted into the oracle `rest`. -/
def do_run (st : Util.StateInfo) (action : String) (rest : Bool × String) :
    (Bool × String) × Util.StateInfo :=
  if action ∈ [Util.START, Util.STOP, Util.RESTART] then
    if Util.is_busy st then ((false, Util.BUSY), st)
    else (rest, st)
  else ((false, "error: Invalid action: " ++ action), st)

/-! ## Helper lemmas -/

lemma log2fuel_eq (f : Nat) : ∀ n, n ≤ f → log2fuel f n = Nat.log2 n := by
  induction f with
  | zero =>
      intro n hn
      have hn0 : n = 0 := by omega
      subst hn0
      show (0:ℕ) = Nat.log2 0
      conv_rhs => rw [Nat.log2]
      norm_num
  | succ f ih =>
      intro n hn
      unfold log2fuel
      by_cases h2 : n < 2
      · rw [if_pos h2]
        conv_rhs => rw [Nat.log2]
        rw [if_neg (by omega)]
      · rw [if_neg h2]
        conv_rhs => rw [Nat.log2]
        rw [if_pos (by omega), ih (n / 2) (by omega)]

lemma natLog2_eq (n : Nat) : natLog2 n = Nat.log2 n :=
  log2fuel_eq n n (le_refl n)

lemma natLog2_self_le (n : Nat) (hn : n ≠ 0) : 2 ^ natLog2 n ≤ n := by
  rw [natLog2_eq]
  exact Nat.log2_self_le hn

lemma natLog2_lt_self (n : Nat) : n < 2 ^ (natLog2 n + 1) := by
  rw [natLog2_eq]
  exact Nat.lt_log2_self

lemma ltPow2_iff (n d : Nat) (hd : 0 < d) (e : ℤ) :
    ltPow2 n d e = true ↔ (n : ℚ) / (d : ℚ) < (2:ℚ) ^ e := by
  have hdq : (0:ℚ) < (d : ℚ) := by exact_mod_cast hd
  unfold ltPow2
  by_cases he : (0:ℤ) ≤ e
  · rw [if_pos he]
    rw [div_lt_iff₀ hdq]
    constructor
    · intro h
      have h2 : n < 2 ^ e.toNat * d := by simpa using h
      calc (n : ℚ) < ((2 ^ e.toNat * d : ℕ) : ℚ) := by exact_mod_cast h2
        _ = (2:ℚ) ^ e * d := by
            push_cast
            rw [← zpow_natCast (2:ℚ) e.toNat, Int.toNat_of_nonneg he]
    · intro h
      have h2 : ((n:ℕ) : ℚ) < ((2 ^ e.toNat * d : ℕ) : ℚ) := by
        calc ((n:ℕ) : ℚ) < (2:ℚ) ^ e * d := h
          _ = ((2 ^ e.toNat * d : ℕ) : ℚ) := by
              push_cast
              rw [← zpow_natCast (2:ℚ) e.toNat, Int.toNat_of_nonneg he]
      simpa using (by exact_mod_cast h2 : n < 2 ^ e.toNat * d)
  · rw [if_neg he]
    push_neg at he
    have he' : (((-e).toNat : ℕ) : ℤ) = -e :=
      Int.toNat_of_nonneg (by omega : (0:ℤ) ≤ -e)
    have hkey : (2:ℚ) ^ e = 1 / (2:ℚ) ^ ((-e).toNat) := by
      rw [one_div, ← zpow_natCast (2:ℚ) ((-e).toNat), he', ← zpow_neg,
        neg_neg]
    rw [hkey]
    have hppos : (0:ℚ) < (2:ℚ) ^ ((-e).toNat) := by positivity
    rw [div_lt_div_iff₀ hdq hppos]
    constructor
    · intro h
      have h2 : n * 2 ^ (-e).toNat < d := by simpa using h
      calc (n : ℚ) * (2:ℚ) ^ ((-e).toNat)
          = ((n * 2 ^ (-e).toNat : ℕ) : ℚ) := by
            push_cast
            ring
        _ < (d : ℚ) := by exact_mod_cast h2
        _ = 1 * (d : ℚ) := by ring
    · intro h
      have h2 : ((n * 2 ^ (-e).toNat : ℕ) : ℚ) < (d : ℚ) := by
        calc ((n * 2 ^ (-e).toNat : ℕ) : ℚ)
            = (n : ℚ) * (2:ℚ) ^ ((-e).toNat) := by
              push_cast
              ring
          _ < 1 * (d : ℚ) := h
          _ = (d : ℚ) := by ring
      simpa using (by exact_mod_cast h2 : n * 2 ^ (-e).toNat < d)

lemma floorLog2ND_le (n d : Nat) (hn : 0 < n) (hd : 0 < d) :
    (2:ℚ) ^ (floorLog2ND n d) ≤ (n : ℚ) / (d : ℚ) := by
  have hdq : (0:ℚ) < (d : ℚ) := by exact_mod_cast hd
  unfold floorLog2ND
  set e0 : ℤ := (natLog2 n : ℤ) - (natLog2 d : ℤ) with he0
  by_cases hc : ltPow2 n d e0 = true
  · rw [if_pos hc]
    have h1 : (2:ℕ) ^ natLog2 n ≤ n := natLog2_self_le n (by omega)
    have h2 : d ≤ 2 ^ (natLog2 d + 1) := le_of_lt (natLog2_lt_self d)
    have hmul : (2:ℕ) ^ natLog2 n * d ≤ n * 2 ^ (natLog2 d + 1) :=
      Nat.mul_le_mul h1 h2
    have hppos : (0:ℚ) < (2:ℚ) ^ ((natLog2 d : ℤ) + 1) := zpow_pos two_pos _
    calc (2:ℚ) ^ (e0 - 1)
        = (2:ℚ) ^ ((natLog2 n : ℤ) - ((natLog2 d : ℤ) + 1)) := by
          rw [he0, show (natLog2 n : ℤ) - (natLog2 d : ℤ) - 1 =
            (natLog2 n : ℤ) - ((natLog2 d : ℤ) + 1) by ring]
      _ = (2:ℚ) ^ (natLog2 n : ℤ) / (2:ℚ) ^ ((natLog2 d : ℤ) + 1) := by
          rw [zpow_sub₀ two_ne_zero]
      _ ≤ (n : ℚ) / (d : ℚ) := by
          rw [div_le_div_iff₀ hppos hdq]
          have hq : ((2:ℚ) ^ (natLog2 n : ℤ)) * (d : ℚ) ≤
              (n : ℚ) * (2:ℚ) ^ ((natLog2 d : ℤ) + 1) := by
            rw [show ((natLog2 d : ℤ) + 1) = ((natLog2 d + 1 : ℕ) : ℤ) by
              push_cast; ring]
            rw [zpow_natCast, zpow_natCast]
            exact_mod_cast hmul
          linarith
  · rw [if_neg hc]
    have := (not_iff_not.mpr (ltPow2_iff n d hd e0)).mp hc
    exact le_of_not_lt this

lemma roundHalfEvenND_mul (x d : Nat) (hd : 0 < d) :
    roundHalfEvenND (x * d) d = x := by
  unfold roundHalfEvenND
  rw [Nat.mul_mod_left, Nat.mul_div_cancel x hd]
  simp [hd]

/-- `rnd53ND` is exact on any value representable with a 53-bit
significand: rounding `n / d = a / 2 ^ k` with `0 < a < 2 ^ 53` returns
the value unchanged. -/
lemma rnd53ND_exact (n d a k : ℕ) (hd : 0 < d) (ha : 0 < a)
    (ha53 : a < 2 ^ 53) (hv : (n : ℚ) / (d : ℚ) = (a : ℚ) / 2 ^ k) :
    0 < (rnd53ND n d).2 ∧
    ((rnd53ND n d).1 : ℚ) / ((rnd53ND n d).2 : ℚ) = (a : ℚ) / 2 ^ k := by
  have hdq : (0:ℚ) < (d : ℚ) := by exact_mod_cast hd
  have haq : (0:ℚ) < (a : ℚ) := by exact_mod_cast ha
  have hpk : (0:ℚ) < (2:ℚ) ^ k := by positivity
  have hnq : (0:ℚ) < (n : ℚ) := by
    by_contra hcon
    push_neg at hcon
    have h0 : ((n:ℕ) : ℚ) = 0 := le_antisymm hcon (by positivity)
    rw [h0] at hv
    simp only [zero_div] at hv
    have hvp := div_pos haq hpk
    rw [← hv] at hvp
    exact lt_irrefl 0 hvp
  have hn : 0 < n := by exact_mod_cast hnq
  have hcross : n * 2 ^ k = a * d := by
    have hq : (n : ℚ) * 2 ^ k = (a : ℚ) * d := by
      field_simp at hv
      linarith [hv]
    exact_mod_cast hq
  set e : ℤ := floorLog2ND n d with he
  have hle : (2:ℚ) ^ e ≤ (n : ℚ) / (d : ℚ) := floorLog2ND_le n d hn hd
  have hek : e + (k : ℤ) ≤ 52 := by
    by_contra hcon
    push_neg at hcon
    have h53 : (53:ℤ) ≤ e + k := by omega
    have h1 : (2:ℚ) ^ (e + (k:ℤ)) ≤ (a : ℚ) := by
      have hstep : (2:ℚ) ^ e * 2 ^ (k:ℤ) ≤ ((n : ℚ) / d) * 2 ^ (k:ℤ) :=
        mul_le_mul_of_nonneg_right hle (by positivity)
      rw [← zpow_add₀ two_ne_zero] at hstep
      calc (2:ℚ) ^ (e + (k:ℤ)) ≤ ((n : ℚ) / d) * 2 ^ (k:ℤ) := hstep
        _ = ((a : ℚ) / 2 ^ k) * 2 ^ (k:ℤ) := by rw [hv]
        _ = (a : ℚ) := by
            rw [zpow_natCast]
            field_simp
    have h2 : (2:ℚ) ^ ((53:ℕ) : ℤ) ≤ (2:ℚ) ^ (e + (k:ℤ)) :=
      zpow_le_zpow_right₀ one_le_two (by exact_mod_cast h53)
    have h3 : ((2 ^ 53 : ℕ) : ℚ) ≤ (a : ℚ) := by
      calc ((2 ^ 53 : ℕ) : ℚ) = (2:ℚ) ^ ((53:ℕ) : ℤ) := by
            rw [zpow_natCast]
            push_cast
            ring
        _ ≤ (2:ℚ) ^ (e + (k:ℤ)) := h2
        _ ≤ (a : ℚ) := h1
    have hcontra : (2:ℕ) ^ 53 ≤ a := by exact_mod_cast h3
    omega
  have hexp : ((52:ℤ) - e).toNat = k + ((52:ℤ) - e - k).toNat := by omega
  have harg : n * 2 ^ ((52:ℤ) - e).toNat =
      (a * 2 ^ ((52:ℤ) - e - k).toNat) * d := by
    rw [hexp, pow_add]
    calc n * (2 ^ k * 2 ^ ((52:ℤ) - e - k).toNat)
        = (n * 2 ^ k) * 2 ^ ((52:ℤ) - e - k).toNat := by ring
      _ = (a * d) * 2 ^ ((52:ℤ) - e - k).toNat := by rw [hcross]
      _ = (a * 2 ^ ((52:ℤ) - e - k).toNat) * d := by ring
  have hsig : rnd53Sig n d e = a * 2 ^ ((52:ℤ) - e - k).toNat := by
    unfold rnd53Sig
    rw [if_pos (by omega : (0:ℤ) ≤ 52 - e), harg]
    exact roundHalfEvenND_mul _ d hd
  unfold rnd53ND
  rw [if_neg (by omega : ¬ n = 0), ← he]
  by_cases hbig : (0:ℤ) ≤ e - 52
  · rw [if_pos hbig]
    have he52 : e = 52 := by omega
    have hk0 : k = 0 := by omega
    constructor
    · simp
    · subst hk0
      rw [hsig, he52]
      norm_num
  · rw [if_neg hbig]
    constructor
    · simp
    · rw [hsig]
      rw [div_eq_div_iff (by positivity) (by positivity)]
      push_cast
      rw [hexp, pow_add]
      ring

lemma natDiv_congr (p q r s : ℕ) (hval : (p:ℚ)/(q:ℚ) = (r:ℚ)/(s:ℚ)) :
    p / q = r / s := by
  have h1 : (p / q : ℕ) = (⌊(p:ℚ)/(q:ℚ)⌋).toNat := by
    rw [Rat.floor_natCast_div_natCast, ← Int.natCast_div, Int.toNat_natCast]
  have h2 : (r / s : ℕ) = (⌊(r:ℚ)/(s:ℚ)⌋).toNat := by
    rw [Rat.floor_natCast_div_natCast, ← Int.natCast_div, Int.toNat_natCast]
  rw [h1, h2, hval]

/-- Height-only resize when the aspect ratio `hh / h` (`= a / 2 ^ k`) and
the product `w * hh / h` (`= b / 2 ^ j`) are both exactly representable in
binary64: every float operation is then exact and the computed width is
the truncated exact ratio `(w * hh) / h`. -/
lemma resize_height_exact (w h hh a k b j : ℕ) (hw : 0 < w) (h0 : 0 < h)
    (hw53 : w < 2 ^ 53) (hh53 : h < 2 ^ 53) (hhh0 : 0 < hh)
    (hhh53 : hh < 2 ^ 53) (ha : 0 < a) (ha53 : a < 2 ^ 53)
    (hq : hh * 2 ^ k = a * h) (hb : 0 < b) (hb53 : b < 2 ^ 53)
    (hp : w * hh * 2 ^ j = b * h) :
    Camera.resize_image w h none (some hh) = ((w * hh) / h, hh) := by
  obtain ⟨hfw2, hfwv⟩ := rnd53ND_exact w 1 w 0 one_pos hw hw53 (by norm_num)
  obtain ⟨hfh2, hfhv⟩ :=
    rnd53ND_exact hh 1 hh 0 one_pos hhh0 hhh53 (by norm_num)
  obtain ⟨hfih2, hfihv⟩ :=
    rnd53ND_exact h 1 h 0 one_pos h0 hh53 (by norm_num)
  set fw := rnd53ND w 1 with hfw_def
  set fh := rnd53ND hh 1 with hfh_def
  set fih := rnd53ND h 1 with hfih_def
  rw [pow_zero, div_one] at hfwv hfhv hfihv
  have hfw2q : (0:ℚ) < (fw.2 : ℚ) := by exact_mod_cast hfw2
  have hfh2q : (0:ℚ) < (fh.2 : ℚ) := by exact_mod_cast hfh2
  have hfih2q : (0:ℚ) < (fih.2 : ℚ) := by exact_mod_cast hfih2
  have hfw_eq : (fw.1 : ℚ) = (w : ℚ) * fw.2 := by
    field_simp at hfwv
    linarith [hfwv]
  have hfh_eq : (fh.1 : ℚ) = (hh : ℚ) * fh.2 := by
    field_simp at hfhv
    linarith [hfhv]
  have hfih_eq : (fih.1 : ℚ) = (h : ℚ) * fih.2 := by
    field_simp at hfihv
    linarith [hfihv]
  have hfih1 : 0 < fih.1 := by
    have hfih1q : (0:ℚ) < (fih.1 : ℚ) := by
      rw [hfih_eq]
      positivity
    exact_mod_cast hfih1q
  have hqQ : (hh : ℚ) * 2 ^ k = (a : ℚ) * h := by exact_mod_cast hq
  have hv_aspect : ((fh.1 * fih.2 : ℕ) : ℚ) / ((fh.2 * fih.1 : ℕ) : ℚ) =
      (a : ℚ) / 2 ^ k := by
    push_cast
    rw [hfh_eq, hfih_eq, div_eq_div_iff (by positivity) (by positivity)]
    calc (hh : ℚ) * fh.2 * fih.2 * 2 ^ k
        = ((hh : ℚ) * 2 ^ k) * (fh.2 * fih.2) := by ring
      _ = ((a : ℚ) * h) * (fh.2 * fih.2) := by rw [hqQ]
      _ = (a : ℚ) * (fh.2 * ((h : ℚ) * fih.2)) := by ring
  obtain ⟨hasp2, haspv⟩ := rnd53ND_exact (fh.1 * fih.2) (fh.2 * fih.1) a k
    (Nat.mul_pos hfh2 hfih1) ha ha53 hv_aspect
  set aspect := rnd53ND (fh.1 * fih.2) (fh.2 * fih.1) with hasp_def
  have haspcross : (aspect.1 : ℚ) * 2 ^ k = (a : ℚ) * aspect.2 := by
    rw [div_eq_div_iff (by positivity) (by positivity)] at haspv
    linarith [haspv]
  have hNat : w * a * 2 ^ j * h = b * 2 ^ k * h := by
    calc w * a * 2 ^ j * h = w * (a * h) * 2 ^ j := by ring
      _ = w * (hh * 2 ^ k) * 2 ^ j := by rw [hq]
      _ = (w * hh * 2 ^ j) * 2 ^ k := by ring
      _ = (b * h) * 2 ^ k := by rw [hp]
      _ = b * 2 ^ k * h := by ring
  have waj : w * a * 2 ^ j = b * 2 ^ k := Nat.eq_of_mul_eq_mul_right h0 hNat
  have wajQ : (w : ℚ) * a * 2 ^ j = (b : ℚ) * 2 ^ k := by exact_mod_cast waj
  have hv_prod : ((fw.1 * aspect.1 : ℕ) : ℚ) / ((fw.2 * aspect.2 : ℕ) : ℚ) =
      (b : ℚ) / 2 ^ j := by
    push_cast
    rw [hfw_eq, div_eq_div_iff (by positivity) (by positivity)]
    apply mul_right_cancel₀ (show ((2:ℚ) ^ k) ≠ 0 by positivity)
    calc ((w : ℚ) * fw.2 * aspect.1 * 2 ^ j) * 2 ^ k
        = (w : ℚ) * 2 ^ j * fw.2 * ((aspect.1 : ℚ) * 2 ^ k) := by ring
      _ = (w : ℚ) * 2 ^ j * fw.2 * ((a : ℚ) * aspect.2) := by rw [haspcross]
      _ = ((w : ℚ) * a * 2 ^ j) * ((fw.2 : ℚ) * aspect.2) := by ring
      _ = ((b : ℚ) * 2 ^ k) * ((fw.2 : ℚ) * aspect.2) := by rw [wajQ]
      _ = ((b : ℚ) * ((fw.2 : ℚ) * aspect.2)) * 2 ^ k := by ring
  obtain ⟨hprod2, hprodv⟩ := rnd53ND_exact (fw.1 * aspect.1)
    (fw.2 * aspect.2) b j (Nat.mul_pos hfw2 hasp2) hb hb53 hv_prod
  set prod := rnd53ND (fw.1 * aspect.1) (fw.2 * aspect.2) with hprod_def
  have hfinal : prod.1 / prod.2 = (w * hh) / h := by
    apply natDiv_congr
    rw [hprodv]
    push_cast
    rw [div_eq_div_iff (by positivity) (by positivity : ((h:ℕ):ℚ) ≠ 0)]
    have hpQ : (w : ℚ) * hh * 2 ^ j = (b : ℚ) * h := by exact_mod_cast hp
    linarith [hpQ]
  show (intOfFloat (fmulND fw (fdivND fh fih)), hh) = ((w * hh) / h, hh)
  unfold intOfFloat fmulND fdivND
  rw [← hasp_def, ← hprod_def, hfinal]

/-- Width-given resize under the symmetric exact-representability
conditions on `ww / w` and `h * ww / w`; the `height` argument is ignored
by this branch. -/
lemma resize_width_exact (w h ww a k b j : ℕ) (hw : 0 < w) (h0 : 0 < h)
    (hw53 : w < 2 ^ 53) (hh53 : h < 2 ^ 53) (hww0 : 0 < ww)
    (hww53 : ww < 2 ^ 53) (ha : 0 < a) (ha53 : a < 2 ^ 53)
    (hq : ww * 2 ^ k = a * w) (hb : 0 < b) (hb53 : b < 2 ^ 53)
    (hp : h * ww * 2 ^ j = b * w) (hopt : Option Nat) :
    Camera.resize_image w h (some ww) hopt = (ww, (h * ww) / w) := by
  obtain ⟨hfih2, hfihv⟩ := rnd53ND_exact h 1 h 0 one_pos h0 hh53 (by norm_num)
  obtain ⟨hfww2, hfwwv⟩ :=
    rnd53ND_exact ww 1 ww 0 one_pos hww0 hww53 (by norm_num)
  obtain ⟨hfiw2, hfiwv⟩ := rnd53ND_exact w 1 w 0 one_pos hw hw53 (by norm_num)
  set fih := rnd53ND h 1 with hfih_def
  set fww := rnd53ND ww 1 with hfww_def
  set fiw := rnd53ND w 1 with hfiw_def
  rw [pow_zero, div_one] at hfihv hfwwv hfiwv
  have hfih2q : (0:ℚ) < (fih.2 : ℚ) := by exact_mod_cast hfih2
  have hfww2q : (0:ℚ) < (fww.2 : ℚ) := by exact_mod_cast hfww2
  have hfiw2q : (0:ℚ) < (fiw.2 : ℚ) := by exact_mod_cast hfiw2
  have hfih_eq : (fih.1 : ℚ) = (h : ℚ) * fih.2 := by
    field_simp at hfihv
    linarith [hfihv]
  have hfww_eq : (fww.1 : ℚ) = (ww : ℚ) * fww.2 := by
    field_simp at hfwwv
    linarith [hfwwv]
  have hfiw_eq : (fiw.1 : ℚ) = (w : ℚ) * fiw.2 := by
    field_simp at hfiwv
    linarith [hfiwv]
  have hfiw1 : 0 < fiw.1 := by
    have hfiw1q : (0:ℚ) < (fiw.1 : ℚ) := by
      rw [hfiw_eq]
      positivity
    exact_mod_cast hfiw1q
  have hqQ : (ww : ℚ) * 2 ^ k = (a : ℚ) * w := by exact_mod_cast hq
  have hv_aspect : ((fww.1 * fiw.2 : ℕ) : ℚ) / ((fww.2 * fiw.1 : ℕ) : ℚ) =
      (a : ℚ) / 2 ^ k := by
    push_cast
    rw [hfww_eq, hfiw_eq, div_eq_div_iff (by positivity) (by positivity)]
    calc (ww : ℚ) * fww.2 * fiw.2 * 2 ^ k
        = ((ww : ℚ) * 2 ^ k) * (fww.2 * fiw.2) := by ring
      _ = ((a : ℚ) * w) * (fww.2 * fiw.2) := by rw [hqQ]
      _ = (a : ℚ) * (fww.2 * ((w : ℚ) * fiw.2)) := by ring
  obtain ⟨hasp2, haspv⟩ := rnd53ND_exact (fww.1 * fiw.2) (fww.2 * fiw.1) a k
    (Nat.mul_pos hfww2 hfiw1) ha ha53 hv_aspect
  set aspect := rnd53ND (fww.1 * fiw.2) (fww.2 * fiw.1) with hasp_def
  have haspcross : (aspect.1 : ℚ) * 2 ^ k = (a : ℚ) * aspect.2 := by
    rw [div_eq_div_iff (by positivity) (by positivity)] at haspv
    linarith [haspv]
  have hNat : h * a * 2 ^ j * w = b * 2 ^ k * w := by
    calc h * a * 2 ^ j * w = h * (a * w) * 2 ^ j := by ring
      _ = h * (ww * 2 ^ k) * 2 ^ j := by rw [hq]
      _ = (h * ww * 2 ^ j) * 2 ^ k := by ring
      _ = (b * w) * 2 ^ k := by rw [hp]
      _ = b * 2 ^ k * w := by ring
  have waj : h * a * 2 ^ j = b * 2 ^ k := Nat.eq_of_mul_eq_mul_right hw hNat
  have wajQ : (h : ℚ) * a * 2 ^ j = (b : ℚ) * 2 ^ k := by exact_mod_cast waj
  have hv_prod : ((fih.1 * aspect.1 : ℕ) : ℚ) /
      ((fih.2 * aspect.2 : ℕ) : ℚ) = (b : ℚ) / 2 ^ j := by
    push_cast
    rw [hfih_eq, div_eq_div_iff (by positivity) (by positivity)]
    apply mul_right_cancel₀ (show ((2:ℚ) ^ k) ≠ 0 by positivity)
    calc ((h : ℚ) * fih.2 * aspect.1 * 2 ^ j) * 2 ^ k
        = (h : ℚ) * 2 ^ j * fih.2 * ((aspect.1 : ℚ) * 2 ^ k) := by ring
      _ = (h : ℚ) * 2 ^ j * fih.2 * ((a : ℚ) * aspect.2) := by
          rw [haspcross]
      _ = ((h : ℚ) * a * 2 ^ j) * ((fih.2 : ℚ) * aspect.2) := by ring
      _ = ((b : ℚ) * 2 ^ k) * ((fih.2 : ℚ) * aspect.2) := by rw [wajQ]
      _ = ((b : ℚ) * ((fih.2 : ℚ) * aspect.2)) * 2 ^ k := by ring
  obtain ⟨hprod2, hprodv⟩ := rnd53ND_exact (fih.1 * aspect.1)
    (fih.2 * aspect.2) b j (Nat.mul_pos hfih2 hasp2) hb hb53 hv_prod
  set prod := rnd53ND (fih.1 * aspect.1) (fih.2 * aspect.2) with hprod_def
  have hfinal : prod.1 / prod.2 = (h * ww) / w := by
    apply natDiv_congr
    rw [hprodv]
    push_cast
    rw [div_eq_div_iff (by positivity) (by positivity : ((w:ℕ):ℚ) ≠ 0)]
    have hpQ : (h : ℚ) * ww * 2 ^ j = (b : ℚ) * w := by exact_mod_cast hp
    linarith [hpQ]
  show (ww, intOfFloat (fmulND fih (fdivND fww fiw))) = (ww, (h * ww) / w)
  unfold intOfFloat fmulND fdivND
  rw [← hasp_def, ← hprod_def, hfinal]

lemma dictSet_keys {α : Type} (d : List (String × α)) (k : String) (v : α)
    (h : containsKey d k = true) :
    (dictSet d k v).map Prod.fst = d.map Prod.fst := by
  induction d with
  | nil => simp [containsKey] at h
  | cons p rest ih =>
      by_cases hp : p.1 = k
      · simp [dictSet, hp]
      · simp only [containsKey, if_neg hp] at h
        simp [dictSet, hp, ih h]

lemma containsKey_eq_true_iff {α : Type} (d : List (String × α)) (k : String) :
    containsKey d k = true ↔ k ∈ d.map Prod.fst := by
  induction d with
  | nil => simp [containsKey]
  | cons p rest ih =>
      by_cases hp : p.1 = k
      · simp [containsKey, hp]
      · simp only [containsKey, if_neg hp, ih, List.map_cons, List.mem_cons]
        constructor
        · exact Or.inr
        · rintro (h | h)
          · exact absurd h.symm hp
          · exact h

lemma dictGet_mem {α : Type} (d : List (String × α)) (k : String) (v : α)
    (h : dictGet d k = some v) : (k, v) ∈ d := by
  induction d with
  | nil => simp [dictGet] at h
  | cons p rest ih =>
      by_cases hp : p.1 = k
      · simp only [dictGet, if_pos hp, Option.some.injEq] at h
        subst h
        subst hp
        simp
      · simp only [dictGet, if_neg hp] at h
        exact List.mem_cons_of_mem _ (ih h)

lemma dictGet_map_self {β : Type} (l : List String) (g : String → β)
    (d : String) (h : d ∈ l) :
    dictGet (l.map (fun x => (x, g x))) d = some (g d) := by
  induction l with
  | nil => simp at h
  | cons a tl ih =>
      by_cases ha : a = d
      · subst ha
        simp [dictGet]
      · rcases List.mem_cons.mp h with h | h
        · exact absurd h.symm ha
        · simp only [List.map_cons, dictGet, if_neg ha]
          exact ih h

/-! ## Claim C7: resize_image -/

set_option maxRecDepth 100000 in
/-- C7 counterexample: the claim states that with only `height` given the
new width is `round(originalWidth * height / originalHeight)`.  For a 3x2
image resized to height 1 the code computes
`int(img_width * (height / float(img_height)))`: every float operation is
exact here (`1/2` and `3/2` are dyadic) and `int()` truncates `1.5` to
`1`, while the claim's `round(3*1/2) = round(1.5) = 2`.  So the claim is
false at this input. -/
theorem resize_image_round_counterexample :
    Camera.resize_image 3 2 none (some 1) = (1, 1) ∧
    round ((3 : ℚ) * 1 / 2) ≠ (1 : ℤ) := by
  constructor
  · decide
  · norm_num [round_eq]

set_option maxRecDepth 100000 in
/-- C7 (amended): for every input image of positive dimensions below
`2 ^ 53` (so that all intermediate values are in the binary64 normal
range): with both `width` and `height` absent, `resize_image` returns the
image unchanged; with only `height` given it produces
`(int(originalWidth * (height / originalHeight)), height)` computed in
binary64, where `int()` truncates toward zero — truncation, not rounding
to nearest — and whenever the aspect ratio `height / originalHeight` and
the product `originalWidth * height / originalHeight` are exactly
representable in binary64 the produced width is exactly
`trunc(originalWidth * height / originalHeight)`; symmetrically with
`width` given (whether or not `height` is also given).  When the float
computation is inexact, double rounding can move the result one below the
exact truncated ratio: a 640x480 image resized to width 164 yields height
122 where the exact ratio truncates to 123. -/
theorem resize_image_spec (w h ww hh : Nat) (hw : 0 < w) (h0 : 0 < h)
    (hw53 : w < 2 ^ 53) (hh53 : h < 2 ^ 53) (hww53 : ww < 2 ^ 53)
    (hhh53 : hh < 2 ^ 53) :
    Camera.resize_image w h none none = (w, h) ∧
    (∀ a k b j : ℕ, 0 < hh → 0 < a → a < 2 ^ 53 → hh * 2 ^ k = a * h →
      0 < b → b < 2 ^ 53 → w * hh * 2 ^ j = b * h →
      Camera.resize_image w h none (some hh) = ((w * hh) / h, hh)) ∧
    (∀ a k b j : ℕ, 0 < ww → 0 < a → a < 2 ^ 53 → ww * 2 ^ k = a * w →
      0 < b → b < 2 ^ 53 → h * ww * 2 ^ j = b * w →
      ∀ hopt : Option Nat,
        Camera.resize_image w h (some ww) hopt = (ww, (h * ww) / w)) ∧
    Camera.resize_image 640 480 (some 164) none = (164, 122) ∧
    (480 * 164) / 640 = 123 := by
  refine ⟨rfl, ?_, ?_, by decide, by decide⟩
  · intro a k b j hhh0 ha ha53 hq hb hb53 hp
    exact resize_height_exact w h hh a k b j hw h0 hw53 hh53 hhh0 hhh53
      ha ha53 hq hb hb53 hp
  · intro a k b j hww0 ha ha53 hq hb hb53 hp hopt
    exact resize_width_exact w h ww a k b j hw h0 hw53 hh53 hww0 hww53
      ha ha53 hq hb hb53 hp hopt

/-- Witness for `resize_image_spec` at a concrete 4x2 image, whose aspect
ratios and products are all exactly representable. -/
theorem resize_image_spec_witness :
    Camera.resize_image 4 2 none none = (4, 2) ∧
    Camera.resize_image 4 2 none (some 3) = ((4 * 3) / 2, 3) ∧
    Camera.resize_image 4 2 (some 3) none = (3, (2 * 3) / 4) :=
  ⟨(resize_image_spec 4 2 3 3 (by decide) (by decide) (by decide)
      (by decide) (by decide) (by decide)).1,
   (resize_image_spec 4 2 3 3 (by decide) (by decide) (by decide)
      (by decide) (by decide) (by decide)).2.1 3 1 6 0 (by decide)
      (by decide) (by decide) (by decide) (by decide) (by decide)
      (by decide),
   (resize_image_spec 4 2 3 3 (by decide) (by decide) (by decide)
      (by decide) (by decide) (by decide)).2.2.1 3 2 3 1 (by decide)
      (by decide) (by decide) (by decide) (by decide) (by decide)
      (by decide) none⟩

/-! ## Claim C8: task slots -/

/-- C8 counterexample: `Builder.__init__` creates task slots only for
`build` and `deploy`; there is no `provision` slot, so the claim that a
slot exists for each of the three kinds fails already at the initial
state. -/
theorem builder_slots_counterexample :
    containsKey builderInitThreads Util.PROVISION = false ∧
    builderInitThreads.map Prod.fst = [Util.BUILD, Util.DEPLOY] := by
  constructor
  · decide
  · decide

/-- C8 (amended): the task slot manager maintains one task slot (with its
own alive flag, initially false) for each of the two task kinds `build`
and `deploy`, from its initial state onward: `do_build` and `do_deploy`
only update the existing slot and never add or remove slots. -/
theorem builder_slots_spec :
    builderInitThreads.map Prod.fst = [Util.BUILD, Util.DEPLOY] ∧
    dictGet builderInitThreads Util.BUILD = some ⟨false, false⟩ ∧
    dictGet builderInitThreads Util.DEPLOY = some ⟨false, false⟩ ∧
    (∀ (st : Util.StateInfo) (th : List (String × Slot))
       (sv : List String) (sq nc : Bool),
       containsKey th Util.BUILD = true →
       ((do_build st th sv sq nc).2.2.1).map Prod.fst = th.map Prod.fst) ∧
    (∀ (st : Util.StateInfo) (th : List (String × Slot)) (im : List String),
       containsKey th Util.DEPLOY = true →
       ((do_deploy st th im).2.2.1).map Prod.fst = th.map Prod.fst) := by
  refine ⟨by decide, by decide, by decide, ?_, ?_⟩
  · intro st th sv sq nc hth
    by_cases hb : Util.is_busy st = true
    · simp [do_build, hb]
    · simp only [do_build, Bool.not_eq_true] at hb ⊢
      rw [hb]
      simp [dictSet_keys th Util.BUILD _ hth]
  · intro st th im hth
    by_cases hb : Util.is_busy st = true
    · simp [do_deploy, hb]
    · simp only [do_deploy, Bool.not_eq_true] at hb ⊢
      rw [hb]
      simp [dictSet_keys th Util.DEPLOY _ hth]

/-- Witness for `builder_slots_spec` at the initial slot dict. -/
theorem builder_slots_spec_witness :
    containsKey builderInitThreads Util.BUILD = true ∧
    ((do_build Util.state_init builderInitThreads ["a"] true
        false).2.2.1).map Prod.fst = builderInitThreads.map Prod.fst :=
  ⟨by decide,
   (builder_slots_spec.2.2.2.1) Util.state_init builderInitThreads ["a"]
     true false (by decide)⟩

/-! ## Claim C9: bounded frame buffer -/

lemma start_buffers_inv (devs : List String) :
    ∀ (reg : Registry) (f : Nat → String) (c : Nat),
      (∀ p ∈ reg, p.2.frames.maxsize = 30 ∧ p.2.frames.items.length ≤ 30) →
      ∀ p ∈ (Camera.start reg devs f c).1,
        p.2.frames.maxsize = 30 ∧ p.2.frames.items.length ≤ 30 := by
  induction devs with
  | nil => intro reg f c hreg p hp; exact hreg p hp
  | cons d ds ih =>
      intro reg f c hreg p hp
      by_cases hd : containsKey reg d = true
      · simp only [Camera.start, hd, if_true] at hp
        exact ih reg f c hreg p hp
      · simp only [Camera.start, hd, if_false, Bool.false_eq_true] at hp
        refine ih _ f (c + 1) ?_ p hp
        intro q hq
        rcases List.mem_append.mp hq with hq | hq
        · exact hreg q hq
        · simp only [List.mem_singleton] at hq
          subst hq
          exact ⟨rfl, by simp⟩

/-- C9: the per-device frame buffer created by `Camera.start` has fixed
capacity `BUFF_SIZE = 30`, and the capture worker's publish step enqueues
the newly encoded frame only when the buffer is not full: it either leaves
the buffer unchanged (dropping the new frame when full — the guarded `put`
never blocks) or appends the new frame at the tail, never removing or
overwriting an existing frame; consequently the buffer length never
exceeds 30. -/
theorem frame_buffer_spec (q : PyQueue Nat) (x : Nat)
    (hcap : q.maxsize = Camera.BUFF_SIZE)
    (hlen : q.items.length ≤ q.maxsize) :
    Camera.BUFF_SIZE = 30 ∧
    (publishFrame q x).maxsize = 30 ∧
    (publishFrame q x).items.length ≤ 30 ∧
    ((publishFrame q x).items = q.items ∨
      (publishFrame q x).items = q.items ++ [x]) ∧
    (q.full = true → publishFrame q x = q) ∧
    (q.full = false → (publishFrame q x).items = q.items ++ [x]) ∧
    (∀ (reg : Registry) (devs : List String) (f : Nat → String)
       (c : Nat),
       (∀ p ∈ reg, p.2.frames.maxsize = 30 ∧ p.2.frames.items.length ≤ 30) →
       ∀ p ∈ (Camera.start reg devs f c).1,
         p.2.frames.maxsize = 30 ∧ p.2.frames.items.length ≤ 30) := by
  have hbs : Camera.BUFF_SIZE = 30 := rfl
  rw [hbs] at hcap
  by_cases hf : q.full = true
  · have hq : publishFrame q x = q := by simp [publishFrame, hf]
    refine ⟨rfl, by rw [hq, hcap], by rw [hq]; omega, Or.inl (by rw [hq]),
      fun _ => hq, fun hc => absurd hf (by simp [hc]), ?_⟩
    intro reg devs f c hreg
    exact start_buffers_inv devs reg f c hreg
  · have hf' : q.full = false := by simpa using hf
    have hq : publishFrame q x = q.put x := by simp [publishFrame, hf']
    have hlt : q.items.length < q.maxsize := by
      by_contra hge
      have : q.full = true := by
        simp only [PyQueue.full, decide_eq_true_iff]
        omega
      simp [this] at hf'
    refine ⟨rfl, by rw [hq]; exact hcap, ?_, Or.inr (by rw [hq]; rfl),
      fun hc => absurd hc hf, fun _ => by rw [hq]; rfl, ?_⟩
    · rw [hq]
      simp only [PyQueue.put, List.length_append, List.length_singleton]
      omega
    · intro reg devs f c hreg
      exact start_buffers_inv devs reg f c hreg

/-- Witness for `frame_buffer_spec` at an empty 30-capacity buffer. -/
theorem frame_buffer_spec_witness :
    (⟨30, []⟩ : PyQueue Nat).maxsize = Camera.BUFF_SIZE ∧
    (publishFrame (⟨30, []⟩ : PyQueue Nat) 7).items = [7] :=
  ⟨by decide,
   by
    have h := frame_buffer_spec (⟨30, []⟩ : PyQueue Nat) 7 (by decide)
      (by decide)
    exact (h.2.2.2.2.2.1) (by decide)⟩

/-! ## Claim C3: busy guard -/

/-- The progress state right after a build has been accepted:
`(build, 0, In Progress)`. -/
def busySt : Util.StateInfo :=
  Util.set_state Util.state_init Util.BUILD (some (PyVal.int 0))

/-- C3 counterexample: `do_run` does not check `is_busy()` first — it
validates the action first, so calling it with an invalid action while the
system is busy returns the invalid-action error, not the `Busy` error. -/
theorem do_run_busy_counterexample :
    Util.is_busy busySt = true ∧
    do_run busySt "foo" (true, "") =
      ((false, "error: Invalid action: foo"), busySt) ∧
    (do_run busySt "foo" (true, "")).1.2 ≠ Util.BUSY := by
  refine ⟨by decide, by decide, by decide⟩

/-- C3 (amended): `is_busy()` returns true iff the shared progress status
field equals `In Progress`.  `do_build`, `do_deploy`, `do_set_config` and
`do_generate_config` check `is_busy()` first and, when it is true, return
immediately with the `Busy` error, spawning no worker thread and leaving
the shared progress state (and the slot dict) unchanged.  `do_run`
validates the action first — an invalid action is rejected with an
invalid-action error even while busy — and otherwise likewise returns the
`Busy` error with the state unchanged. -/
theorem busy_guard_spec (st : Util.StateInfo) (th : List (String × Slot))
    (sv im : List String) (sq nc : Bool) (r2 r2' : Bool × String)
    (r3 : Bool × String × String) (a : String) :
    (Util.is_busy st = true ↔
      dictGet st Util.STATUS = some (PyVal.str Util.IN_PROGRESS)) ∧
    (Util.is_busy st = true →
      do_build st th sv sq nc = ((false, Util.BUSY, ""), st, th, false) ∧
      do_deploy st th im = ((false, Util.BUSY), st, th, false) ∧
      do_set_config st r2 = ((false, Util.BUSY), st) ∧
      do_generate_config st r3 = ((false, Util.BUSY, ""), st) ∧
      (a ∈ [Util.START, Util.STOP, Util.RESTART] →
        do_run st a r2' = ((false, Util.BUSY), st))) := by
  constructor
  · simp [Util.is_busy]
  · intro hb
    refine ⟨by simp [do_build, hb], by simp [do_deploy, hb],
      by simp [do_set_config, hb], by simp [do_generate_config, hb], ?_⟩
    intro ha
    simp [do_run, ha, hb]

/-- Witness for `busy_guard_spec` at the concrete busy state. -/
theorem busy_guard_spec_witness :
    Util.is_busy busySt = true ∧
    do_build busySt builderInitThreads ["a"] true false =
      ((false, Util.BUSY, ""), busySt, builderInitThreads, false) ∧
    do_run busySt Util.START (true, "") = ((false, Util.BUSY), busySt) :=
  ⟨by decide,
   ((busy_guard_spec busySt builderInitThreads ["a"] ["b"] true false
       (true, "") (true, "") (true, "", "") Util.START).2 (by decide)).1,
   (((busy_guard_spec busySt builderInitThreads ["a"] ["b"] true false
       (true, "") (true, "") (true, "", "") Util.START).2
       (by decide)).2.2.2.2) (by decide)⟩

/-! ## Claims C4-C6: camera registry -/

lemma containsKey_cons {α : Type} (p : String × α) (rest : List (String × α))
    (k : String) :
    containsKey (p :: rest) k = if p.1 = k then true else containsKey rest k :=
  rfl

lemma dictGet_cons {α : Type} (p : String × α) (rest : List (String × α))
    (k : String) :
    dictGet (p :: rest) k = if p.1 = k then some p.2 else dictGet rest k :=
  rfl

lemma setAlive_cons (p : String × Handle) (rest : Registry) (d : String)
    (b : Bool) :
    Camera.setAlive (p :: rest) d b =
      (if p.1 = d then (p.1, { p.2 with alive := b }) else p) ::
        Camera.setAlive rest d b := by
  simp only [Camera.setAlive, List.map_cons]

lemma eraseKey_cons (p : String × Handle) (rest : Registry) (d : String) :
    Camera.eraseKey (p :: rest) d =
      if p.1 = d then Camera.eraseKey rest d
      else p :: Camera.eraseKey rest d := by
  simp only [Camera.eraseKey, List.filter_cons]
  by_cases hp : p.1 = d <;> simp [hp]

lemma containsKey_setAlive (reg : Registry) (d x : String) (b : Bool) :
    containsKey (Camera.setAlive reg d b) x = containsKey reg x := by
  induction reg with
  | nil => rfl
  | cons p rest ih =>
      rw [setAlive_cons]
      by_cases hp : p.1 = d
      · rw [if_pos hp]
        by_cases hx : p.1 = x
        · simp [containsKey_cons, hx]
        · simp [containsKey_cons, hx, ih]
      · rw [if_neg hp]
        by_cases hx : p.1 = x
        · simp [containsKey_cons, hx]
        · simp [containsKey_cons, hx, ih]

lemma dictGet_setAlive_self (reg : Registry) (d : String) (b : Bool) :
    dictGet (Camera.setAlive reg d b) d =
      (dictGet reg d).map (fun hd => { hd with alive := b }) := by
  induction reg with
  | nil => rfl
  | cons p rest ih =>
      rw [setAlive_cons]
      by_cases hp : p.1 = d
      · rw [if_pos hp]
        simp [dictGet_cons, hp]
      · rw [if_neg hp]
        simp [dictGet_cons, hp, ih]

lemma eraseKey_setAlive (reg : Registry) (d : String) (b : Bool) :
    Camera.eraseKey (Camera.setAlive reg d b) d = Camera.eraseKey reg d := by
  induction reg with
  | nil => rfl
  | cons p rest ih =>
      rw [setAlive_cons]
      by_cases hp : p.1 = d
      · rw [if_pos hp, eraseKey_cons, eraseKey_cons]
        simp [hp, ih]
      · rw [if_neg hp, eraseKey_cons, eraseKey_cons]
        simp [hp, ih]

lemma containsKey_eraseKey_self (reg : Registry) (d : String) :
    containsKey (Camera.eraseKey reg d) d = false := by
  induction reg with
  | nil => rfl
  | cons p rest ih =>
      rw [eraseKey_cons]
      by_cases hp : p.1 = d
      · rw [if_pos hp]
        exact ih
      · rw [if_neg hp]
        simp [containsKey_cons, hp, ih]

/-- C4: stopping a registered device `d` first sets its alive flag to
false under the registry lock without removing the entry (signal phase),
then releases the lock, joins the worker thread, and only after the join
removes the entry — the event trace is exactly
`[signal d, unlock, join d, remove d]`; when `stop` returns the registry
contains no entry for `d` (the worker termination itself is what the
`join` event denotes).  An empty device list is treated as the list of all
currently registered devices. -/
theorem camera_stop_spec (reg : Registry) (d : String)
    (h : containsKey reg d = true) :
    containsKey (Camera.stopSignalPhase reg [d]).1 d = true ∧
    dictGet (Camera.stopSignalPhase reg [d]).1 d =
      (dictGet reg d).map (fun hd => { hd with alive := false }) ∧
    Camera.stop reg [d] =
      (Camera.eraseKey reg d,
       [CamEv.signal d, CamEv.unlock, CamEv.join d, CamEv.remove d]) ∧
    containsKey (Camera.stop reg [d]).1 d = false ∧
    (∀ r : Registry, Camera.stop r [] = Camera.stop r (r.map Prod.fst)) := by
  have hsig : Camera.stopSignalPhase reg [d] =
      (Camera.setAlive reg d false, [CamEv.signal d]) := by
    simp [Camera.stopSignalPhase, h]
  have hstop : Camera.stop reg [d] =
      (Camera.eraseKey reg d,
       [CamEv.signal d, CamEv.unlock, CamEv.join d, CamEv.remove d]) := by
    show (let devices := [d]
          let p1 := Camera.stopSignalPhase reg devices
          let threads := p1.1
          let p2 := Camera.stopJoinPhase p1.1 threads devices
          (p2.1, p1.2 ++ CamEv.unlock :: p2.2)) = _
    simp only [hsig]
    have hk : containsKey (Camera.setAlive reg d false) d = true := by
      rw [containsKey_setAlive]; exact h
    simp only [Camera.stopJoinPhase, hk, if_true, eraseKey_setAlive]
    rfl
  refine ⟨?_, ?_, hstop, ?_, ?_⟩
  · rw [hsig, containsKey_setAlive]; exact h
  · rw [hsig]; exact dictGet_setAlive_self reg d false
  · rw [hstop]; exact containsKey_eraseKey_self reg d
  · intro r
    cases r with
    | nil => rfl
    | cons p ps => rfl

/-- Witness for `camera_stop_spec` on a one-entry registry. -/
theorem camera_stop_spec_witness :
    containsKey ([("0", ⟨"tok", 0, true, ⟨30, []⟩⟩)] : Registry) "0" = true ∧
    Camera.stop ([("0", ⟨"tok", 0, true, ⟨30, []⟩⟩)] : Registry) ["0"] =
      ([], [CamEv.signal "0", CamEv.unlock, CamEv.join "0",
            CamEv.remove "0"]) :=
  ⟨by decide,
   by
    have h := camera_stop_spec ([("0", ⟨"tok", 0, true, ⟨30, []⟩⟩)] :
      Registry) "0" (by decide)
    rw [h.2.2.1]
    rfl⟩

/-- C5: `Camera.start` is idempotent per device: when `d` is already
registered, `start [d]` leaves the registry completely unchanged (same
stream id, same worker-thread handle, same buffer), consumes no fresh
stream id, and emits only the already-running warning — no spawn event;
with nodup keys exactly one entry (hence one worker thread) exists for
`d`.  Devices are processed independently: an already-present head device
contributes only its warning and does not affect how the remaining
devices are handled. -/
theorem camera_start_idempotent (reg : Registry) (d : String)
    (ds : List String) (f : Nat → String) (c : Nat)
    (h : containsKey reg d = true) :
    Camera.start reg [d] f c = (reg, c, [CamEv.warnRunning d]) ∧
    Camera.start reg (d :: ds) f c =
      ((Camera.start reg ds f c).1, (Camera.start reg ds f c).2.1,
        CamEv.warnRunning d :: (Camera.start reg ds f c).2.2) ∧
    ((reg.map Prod.fst).Nodup → (reg.map Prod.fst).count d = 1) := by
    refine ⟨by simp [Camera.start, h], by simp [Camera.start, h], ?_⟩
    intro hnd
    exact List.count_eq_one_of_mem hnd ((containsKey_eq_true_iff reg d).mp h)

/-- Witness for `camera_start_idempotent` on a one-entry registry. -/
theorem camera_start_idempotent_witness :
    containsKey ([("0", ⟨"tok", 0, true, ⟨30, []⟩⟩)] : Registry) "0" = true ∧
    Camera.start ([("0", ⟨"tok", 0, true, ⟨30, []⟩⟩)] : Registry) ["0"]
        (fun _ => "t2") 1 =
      ([("0", ⟨"tok", 0, true, ⟨30, []⟩⟩)], 1, [CamEv.warnRunning "0"]) :=
  ⟨by decide,
   (camera_start_idempotent ([("0", ⟨"tok", 0, true, ⟨30, []⟩⟩)] : Registry)
     "0" [] (fun _ => "t2") 1 (by decide)).1⟩

lemma start_ids_nonempty (devs : List String) :
    ∀ (reg : Registry) (f : Nat → String) (c : Nat),
      (∀ p ∈ reg, p.2.id ≠ "") → (∀ k, f k ≠ "") →
      ∀ p ∈ (Camera.start reg devs f c).1, p.2.id ≠ "" := by
  induction devs with
  | nil => intro reg f c hreg _ p hp; exact hreg p hp
  | cons d ds ih =>
      intro reg f c hreg hf p hp
      by_cases hd : containsKey reg d = true
      · simp only [Camera.start, hd, if_true] at hp
        exact ih reg f c hreg hf p hp
      · simp only [Camera.start, hd, if_false, Bool.false_eq_true] at hp
        refine ih _ f (c + 1) ?_ hf p hp
        intro q hq
        rcases List.mem_append.mp hq with hq | hq
        · exact hreg q hq
        · simp only [List.mem_singleton] at hq
          subst hq
          exact hf c

/-- C6: `get_status` reports each registered queried device as Running
together with its stored stream id (non-empty whenever the registry was
built by `start` from a non-empty token supply, as `token_urlsafe`
guarantees), and each queried device not in the registry as Not Running
with no stream-id field; an empty device list yields exactly the status
of the currently registered devices. -/
theorem camera_get_status_spec (reg : Registry) (devices : List String)
    (hids : ∀ p ∈ reg, p.2.id ≠ "") :
    (∀ d ∈ devices, ∀ hd, dictGet reg d = some hd →
        dictGet (Camera.get_status reg devices) d =
          some (Camera.CamStatus.running hd.id) ∧ hd.id ≠ "") ∧
    (∀ d ∈ devices, dictGet reg d = none →
        dictGet (Camera.get_status reg devices) d =
          some Camera.CamStatus.notRunning) ∧
    Camera.get_status reg [] =
      reg.map (fun p => (p.1, Camera.CamStatus.running p.2.id)) ∧
    (∀ (reg0 : Registry) (devs : List String) (f : Nat → String) (c : Nat),
        (∀ p ∈ reg0, p.2.id ≠ "") → (∀ k, f k ≠ "") →
        ∀ p ∈ (Camera.start reg0 devs f c).1, p.2.id ≠ "") := by
  have hmap : ∀ d ∈ devices,
      dictGet (Camera.get_status reg devices) d =
        some (match dictGet reg d with
              | some hd => Camera.CamStatus.running hd.id
              | none => Camera.CamStatus.notRunning) := by
    intro d hd
    cases devices with
    | nil => simp at hd
    | cons a tl =>
        exact dictGet_map_self (a :: tl)
          (fun x => match dictGet reg x with
            | some h => Camera.CamStatus.running h.id
            | none => Camera.CamStatus.notRunning) d hd
  refine ⟨?_, ?_, rfl, fun reg0 devs f c h1 h2 => start_ids_nonempty devs reg0 f c h1 h2⟩
  · intro d hdev hd hget
    refine ⟨?_, hids (d, hd) (dictGet_mem reg d hd hget)⟩
    rw [hmap d hdev, hget]
  · intro d hdev hget
    rw [hmap d hdev, hget]

/-- Witness for `camera_get_status_spec`: device "0" registered, device
"1" never started. -/
theorem camera_get_status_spec_witness :
    dictGet (Camera.get_status ([("0", ⟨"tok", 0, true, ⟨30, []⟩⟩)] :
        Registry) ["0", "1"]) "0" =
      some (Camera.CamStatus.running "tok") ∧
    dictGet (Camera.get_status ([("0", ⟨"tok", 0, true, ⟨30, []⟩⟩)] :
        Registry) ["0", "1"]) "1" = some Camera.CamStatus.notRunning :=
  ⟨((camera_get_status_spec ([("0", ⟨"tok", 0, true, ⟨30, []⟩⟩)] : Registry)
      ["0", "1"] (by decide)).1 "0" (by decide) ⟨"tok", 0, true, ⟨30, []⟩⟩
      (by decide)).1,
   (camera_get_status_spec ([("0", ⟨"tok", 0, true, ⟨30, []⟩⟩)] : Registry)
      ["0", "1"] (by decide)).2.1 "1" (by decide) (by decide)⟩

/-! ## Claims C1, C2, C10: build/deploy workers -/

lemma builderSeqLoop_batchMode_false (alive cmdOk : Nat → Bool) (n : Nat) :
    ∀ (rest : List String) (i : Nat),
      (builderSeqLoop alive cmdOk n rest i).batchMode = false := by
  intro rest
  induction rest with
  | nil => intro i; rfl
  | cons hd tl ih =>
      intro i
      by_cases ha : alive i = true
      · by_cases hc : cmdOk i = true
        · simp [builderSeqLoop, ha, hc, ih]
        · simp [builderSeqLoop, ha, hc]
      · simp [builderSeqLoop, ha]

/-- Characterization of the sequential build loop when the alive flag
stays true: there is a cut index `j` (the count of successful commands)
such that the published events are the per-service progress updates for
the first `j` services followed by the terminal event — `(100, Success)`
when all services were built, `(0, Failed)` when command `j` failed. -/
lemma builderSeqLoop_char (alive cmdOk : Nat → Bool) (n : Nat)
    (halive : ∀ k, alive k = true) :
    ∀ (rest : List String) (i : Nat), i + rest.length = n →
      ∃ j, i ≤ j ∧ j ≤ n ∧ (∀ k, i ≤ k → k < j → cmdOk k = true) ∧
        (j < n → cmdOk j = false) ∧
        builderSeqLoop alive cmdOk n rest i =
          { events := (List.range' i (j - i)).map (fun k =>
                ⟨Util.BUILD, PyVal.int (((k + 1) * 100) / n),
                  Util.IN_PROGRESS⟩) ++
              [if j = n then ⟨Util.BUILD, PyVal.int 100, Util.SUCCESS⟩
               else ⟨Util.BUILD, PyVal.int 0, Util.FAILED⟩],
            cmdsRun := if j = n then n - i else j - i + 1,
            finalAlive := false, batchMode := false } := by
  intro rest
  induction rest with
  | nil =>
      intro i hlen
      simp only [List.length_nil, Nat.add_zero] at hlen
      subst hlen
      refine ⟨i, le_refl i, le_refl i, ?_, ?_, ?_⟩
      · intro k h1 h2; omega
      · intro h; omega
      · simp [builderSeqLoop]
  | cons hd tl ih =>
      intro i hlen
      have hin : i < n := by simp only [List.length_cons] at hlen; omega
      by_cases hc : cmdOk i = true
      · obtain ⟨j, hij, hjn, hall, hfail, heq⟩ := ih (i + 1) (by
          simp only [List.length_cons] at hlen; omega)
        refine ⟨j, by omega, hjn, ?_, hfail, ?_⟩
        · intro k h1 h2
          rcases Nat.eq_or_lt_of_le h1 with h1' | h1'
          · rw [← h1']; exact hc
          · exact hall k (by omega) h2
        · have hstep : builderSeqLoop alive cmdOk n (hd :: tl) i =
              { events := ⟨Util.BUILD, PyVal.int (((i + 1) * 100) / n),
                  Util.IN_PROGRESS⟩ ::
                  (builderSeqLoop alive cmdOk n tl (i + 1)).events,
                cmdsRun :=
                  (builderSeqLoop alive cmdOk n tl (i + 1)).cmdsRun + 1,
                finalAlive :=
                  (builderSeqLoop alive cmdOk n tl (i + 1)).finalAlive,
                batchMode :=
                  (builderSeqLoop alive cmdOk n tl (i + 1)).batchMode } := by
            simp [builderSeqLoop, halive i, hc]
          rw [hstep, heq]
          have hji : j - i = (j - (i + 1)) + 1 := by omega
          have hmk : ∀ (A B : List StateEvent) (x y : Nat), A = B → x = y →
              ({ events := A, cmdsRun := x, finalAlive := false,
                 batchMode := false } : RunResult) =
              { events := B, cmdsRun := y, finalAlive := false,
                batchMode := false } := by
            intro A B x y h1 h2
            rw [h1, h2]
          apply hmk
          · rw [hji, List.range'_succ]
            simp
          · by_cases hj : j = n
            · simp only [hj, if_true]
              omega
            · simp only [if_neg hj]
              omega
      · refine ⟨i, le_refl i, by omega, ?_, ?_, ?_⟩
        · intro k h1 h2; omega
        · intro _
          simpa using hc
        · have hstep : builderSeqLoop alive cmdOk n (hd :: tl) i =
              { events := [⟨Util.BUILD, PyVal.int 0, Util.FAILED⟩],
                cmdsRun := 1, finalAlive := false, batchMode := false } := by
            simp [builderSeqLoop, halive i, hc]
          rw [hstep]
          have hne : ¬ (i = n) := by omega
          simp [hne]

/-- C1 counterexample: in a sequential build of two services where the
first command succeeds and the second fails, the published progress
sequence is `50` then `0`: the run ends with `(0, Failed)` — progress is
reset to 0 by `set_state(BUILD, 0, "Failed")`, not frozen at the value 50
it had after the last successful service, and the published sequence is
not monotonically non-decreasing (`50 > 0`). -/
theorem build_progress_counterexample :
    builder_thread ["svcA", "svcB"] true false
        ⟨none, true, fun _ => true, fun k => k == 0, true⟩ =
      some { events := [⟨Util.BUILD, PyVal.int 50, Util.IN_PROGRESS⟩,
               ⟨Util.BUILD, PyVal.int 0, Util.FAILED⟩],
             cmdsRun := 2, finalAlive := false, batchMode := false } ∧
    ¬ ((50 : Nat) ≤ 0) :=
  ⟨rfl, by decide⟩

/-- C1 (amended): for every build run over a list of services in
sequential mode during which the slot's alive flag stays true
(uncancelled), the progress published after each completed service `i` of
`n` equals `floor(i*100/n)` with status In Progress, and these updates
are monotonically non-decreasing; the run ends with progress exactly 100
and status Success precisely when every service build command succeeded;
if the command for service `j` fails, the worker runs no further build
commands and publishes final progress 0 (reset, not frozen) with status
Failed. -/
theorem build_progress_spec (services : List String) (seq nc : Bool)
    (o : BuildOracle) (hne : services ≠ [])
    (hstar : services.head? ≠ some "*") (hrm : o.rmOk = true)
    (halive : ∀ k, o.alive k = true) :
    ∃ j, j ≤ services.length ∧
      (∀ k, k < j → o.svcCmdOk k = true) ∧
      (j < services.length → o.svcCmdOk j = false) ∧
      builder_thread services seq nc o = some
        { events := (List.range j).map (fun k =>
              ⟨Util.BUILD, PyVal.int (((k + 1) * 100) / services.length),
                Util.IN_PROGRESS⟩) ++
            [if j = services.length
             then ⟨Util.BUILD, PyVal.int 100, Util.SUCCESS⟩
             else ⟨Util.BUILD, PyVal.int 0, Util.FAILED⟩],
          cmdsRun := if j = services.length then services.length else j + 1,
          finalAlive := false, batchMode := false } ∧
      List.Chain' (· ≤ ·) ((List.range j).map
        (fun k => ((k + 1) * 100) / services.length)) := by
  obtain ⟨s0, tl, rfl⟩ : ∃ s0 tl, services = s0 :: tl := by
    cases services with
    | nil => exact absurd rfl hne
    | cons a b => exact ⟨a, b, rfl⟩
  have hs0 : ¬ (s0 = "*") := by
    intro h
    exact hstar (by rw [h]; rfl)
  have hbt : builder_thread (s0 :: tl) seq nc o =
      some (builderMain (s0 :: tl) true o) := by
    simp [builder_thread, hs0]
  have hbm : builderMain (s0 :: tl) true o =
      builderSeqLoop o.alive o.svcCmdOk (s0 :: tl).length (s0 :: tl) 0 := by
    simp [builderMain, hrm]
  obtain ⟨j, h0j, hjn, hall, hfail, heq⟩ :=
    builderSeqLoop_char o.alive o.svcCmdOk (s0 :: tl).length halive
      (s0 :: tl) 0 (by simp)
  refine ⟨j, hjn, ?_, hfail, ?_, ?_⟩
  · intro k hk
    exact hall k (Nat.zero_le k) hk
  · rw [hbt, hbm, heq]
    simp [List.range_eq_range']
  · refine List.Pairwise.chain' ?_
    refine List.Pairwise.map _ ?_ (List.pairwise_lt_range j)
    intro a b hab
    exact Nat.div_le_div_right (Nat.mul_le_mul_right 100 (by omega))

/-- Witness for `build_progress_spec`: one service, its command succeeds;
the run publishes `(100, In Progress)` then `(100, Success)`. -/
theorem build_progress_spec_witness :
    builder_thread ["a"] true false
        ⟨none, true, fun _ => true, fun _ => true, true⟩ =
      some { events := [⟨Util.BUILD, PyVal.int 100, Util.IN_PROGRESS⟩,
               ⟨Util.BUILD, PyVal.int 100, Util.SUCCESS⟩],
             cmdsRun := 1, finalAlive := false, batchMode := false } := by
  obtain ⟨j, hj, hall, hfail, heq, hmono⟩ :=
    build_progress_spec ["a"] true false
      ⟨none, true, fun _ => true, fun _ => true, true⟩ (by decide)
      (by decide) rfl (fun _ => rfl)
  have hj1 : j = 1 := by
    rcases Nat.lt_or_ge j 1 with h | h
    · have := hfail (by simpa using h)
      simp at this
    · have hlen : (["a"] : List String).length = 1 := rfl
      omega
  subst hj1
  rw [heq]
  rfl

/-- C2 (code bug): after cancellation sets the build slot's alive flag to
false, `builder_thread` does detect the flag at the next inter-step check
and runs no further build command (here only 1 of 2 services is built),
but it then falls through to `set_state(BUILD, 100, "Success")`
(builder.py:365), leaving final status Success at progress 100 — not
Failed as the claim (and the spec) require.  `deployer_thread`, by
contrast, re-checks the flag after its loop (builder.py:428-430) and
leaves `(0, Failed)` as required.  The alive oracle `fun k => k == 0`
models a cancel arriving after the first service/image. -/
theorem cancel_build_success_bug :
    builder_thread ["svcA", "svcB"] true false
        ⟨none, true, fun k => k == 0, fun _ => true, true⟩ =
      some { events := [⟨Util.BUILD, PyVal.int 50, Util.IN_PROGRESS⟩,
               ⟨Util.BUILD, PyVal.int 100, Util.SUCCESS⟩],
             cmdsRun := 1, finalAlive := false, batchMode := false } ∧
    deployer_thread ["imgA", "imgB"]
        ⟨fun k => k == 0, fun _ => true, true⟩ =
      { events := [⟨Util.DEPLOY, PyVal.floatDiv 100 3, Util.IN_PROGRESS⟩,
          ⟨Util.DEPLOY, PyVal.int 0, Util.FAILED⟩], cmdsRun := 1 } :=
  ⟨rfl, rfl⟩

lemma builderMain_seq_batchMode (ls : List String) (o : BuildOracle) :
    (builderMain ls true o).batchMode = false := by
  by_cases hrm : o.rmOk = true
  · simp [builderMain, hrm, builderSeqLoop_batchMode_false]
  · simp [builderMain, hrm]

/-- C10: `builder_thread` unconditionally indexes the first service, so a
non-empty service list is a precondition (the empty list is the error
value `none` of the embedding, an `IndexError` in Python); when the first
element is not `"*"` the worker forces sequential mode regardless of the
`sequential` parameter; and the batch (aggregate) build path is reachable
only when the first element is `"*"` and `sequential` is false. -/
theorem build_mode_spec (services : List String) (seq nc : Bool)
    (o : BuildOracle) :
    builder_thread [] seq nc o = none ∧
    (services ≠ [] → services.head? ≠ some "*" →
      builder_thread services seq nc o = builder_thread services true nc o ∧
      builder_thread services seq nc o = some (builderMain services true o)) ∧
    (∀ r, builder_thread services seq nc o = some r → r.batchMode = true →
      services.head? = some "*" ∧ seq = false) := by
  refine ⟨rfl, ?_, ?_⟩
  · intro hne hstar
    obtain ⟨s0, tl, rfl⟩ : ∃ s0 tl, services = s0 :: tl := by
      cases services with
      | nil => exact absurd rfl hne
      | cons a b => exact ⟨a, b, rfl⟩
    have hs0 : ¬ (s0 = "*") := by
      intro h
      exact hstar (by rw [h]; rfl)
    constructor <;> simp [builder_thread, hs0]
  · intro r hr hbatch
    cases services with
    | nil => simp [builder_thread] at hr
    | cons s0 tl =>
        by_cases hs0 : s0 = "*"
        · subst hs0
          refine ⟨rfl, ?_⟩
          by_cases hseq : seq = true
          · exfalso
            rw [hseq] at hr
            cases hyml : o.ymlServices with
            | some ls =>
                have hr' : builderMain ls true o = r := by
                  simp [builder_thread, hyml] at hr
                  exact hr
                rw [← hr', builderMain_seq_batchMode] at hbatch
                exact absurd hbatch (by simp)
            | none =>
                have hr' : ({ events := [⟨Util.BUILD, PyVal.int 0,
                                Util.FAILED⟩],
                              cmdsRun := 0, finalAlive := false,
                              batchMode := false } : RunResult) = r := by
                  simp [builder_thread, hyml] at hr
                  exact hr
                rw [← hr'] at hbatch
                exact absurd hbatch (by simp)
          · simpa using hseq
        · exfalso
          have hbt : builder_thread (s0 :: tl) seq nc o =
              some (builderMain (s0 :: tl) true o) := by
            simp [builder_thread, hs0]
          rw [hbt] at hr
          have hrr : r = builderMain (s0 :: tl) true o :=
            (Option.some.inj hr).symm
          rw [hrr, builderMain_seq_batchMode] at hbatch
          exact absurd hbatch (by simp)

/-- Witness for `build_mode_spec`: an explicit one-service list builds
identically for both values of the `sequential` parameter. -/
theorem build_mode_spec_witness :
    builder_thread ["a"] false false
        ⟨none, true, fun _ => true, fun _ => true, true⟩ =
      builder_thread ["a"] true false
        ⟨none, true, fun _ => true, fun _ => true, true⟩ :=
  ((build_mode_spec ["a"] false false
      ⟨none, true, fun _ => true, fun _ => true, true⟩).2.1 (by decide)
      (by decide)).1
